import Mathlib

/-
Verification of the keystore component (src/components/keystore/keystore.c)
of the specter-diy repository, as a shallow embedding in Lean 4.

Conventions of the embedding:
  - C strings are lists of characters not containing the NUL terminator; the
    byte buffer backing a string s holds s followed by one NUL byte, and a
    read of byte i is in bounds exactly for 0 <= i <= s.length.
  - size_t arithmetic is natural-number arithmetic modulo 2^64, and pointer
    offsets from the start of a buffer are likewise reduced modulo 2^64
    (a 64 bit target), so the unsigned underflows of the source are modelled
    exactly instead of being hidden.
  - uint32_t arithmetic (the derivation entries) is modulo 2^32.
  - external libwally primitives (bip32 derivation, serialization, base58,
    address rendering, ECDSA) are abstracted as oracle functions bundled into
    environment structures; the control flow around them is translated from
    the source.
-/

namespace Specter

/-- Modulus of size_t arithmetic on the 64 bit target, 2 to the 64. -/
def SIZE_MOD : Nat := 18446744073709551616

/-- BIP32_INITIAL_HARDENED_CHILD, 2 to the 31. -/
def HARDENED : Nat := 2147483648

/-- Modulus of uint32_t arithmetic, 2 to the 32. -/
def U32 : Nat := 4294967296

/-- The NUL terminator byte. -/
def NUL : Char := Char.ofNat 0

/-- The VALID_CHARS array of parse_derivation: the ten digits, the slash,
the apostrophe (byte 39) and the letter h, in that order. -/
def validChars : List Char :=
  [Char.ofNat 48, Char.ofNat 49, Char.ofNat 50, Char.ofNat 51, Char.ofNat 52,
   Char.ofNat 53, Char.ofNat 54, Char.ofNat 55, Char.ofNat 56, Char.ofNat 57,
   Char.ofNat 47, Char.ofNat 39, Char.ofNat 104]

/-- Index of the first occurrence of a character in a list, used to model
strchr pointer arithmetic. -/
def idxOfAux : List Char → Char → Nat → Option Nat
  | [], _, _ => none
  | x :: xs, c, i => if x = c then some i else idxOfAux xs c (i + 1)

/-- strchr(VALID_CHARS, c): searches the thirteen valid characters and also
finds the NUL terminator of the array itself (index 13), exactly as the C
library function does. -/
def strchrValid (c : Char) : Option Nat :=
  idxOfAux (validChars ++ [NUL]) c 0

/-- Reading byte i of the buffer that holds the C string s: bytes 0 to
s.length - 1 are the characters, byte s.length is the terminating NUL, and
any other index is outside the allocation. -/
def readAt (s : List Char) (i : Nat) : Option Char :=
  if h : i < s.length then some (s.get ⟨i, h⟩)
  else if i = s.length then some NUL
  else none

/-- Result of parse_derivation. The source returns NULL from two distinct
sites, the invalid-character check of the first loop and the
anything-after-hardened check of the second loop; the embedding keeps the
two sites apart as invalidChar and malformedHardening. oob records that the
run performed a memory access outside the string buffer. -/
inductive ParseResult where
  | ok : List Nat → ParseResult
  | invalidChar : ParseResult
  | malformedHardening : ParseResult
  | oob : ParseResult
deriving DecidableEq

/-- Result of the first loop of parse_derivation. -/
inductive ScanResult where
  | ok : List Char → ScanResult
  | invalidChar : ScanResult
  | oob : ScanResult
deriving DecidableEq

/-- First loop of parse_derivation (validity check): iterates i from 0 while
i < len, reading cur[i] at absolute byte offset (curOff + i) mod 2^64.
A strchr miss is the invalid-character return; a read outside the buffer is
recorded as oob. The characters read are collected so that the second loop,
which rereads the same bytes of the same buffer, can consume them. The
second argument is the absolute offset of the next read, the third the
remaining loop count len - i, on which the recursion is structural. -/
def scanRegion (s : List Char) : Nat → Nat → List Char → ScanResult
  | _, 0, acc => ScanResult.ok acc.reverse
  | off, Nat.succ rem, acc =>
    match readAt s (off % SIZE_MOD) with
    | none => ScanResult.oob
    | some c =>
      match strchrValid c with
      | none => ScanResult.invalidChar
      | some _ => scanRegion s (off + 1) rem (c :: acc)

/-- Second loop of parse_derivation, restructured with an explicit segment
accumulator: the C writes only derivation[current], current advances by one
on each slash, and calloc zero-initializes every slot, so the array built is
exactly the closed segments followed by the running accumulator. The
accumulated value follows uint32_t arithmetic. The malformedHardening return
is the source check that nothing may follow once a segment value reached the
hardened range. -/
def phase2 : List Char → Nat → List Nat → ParseResult
  | [], acc, segs => ParseResult.ok (segs ++ [acc])
  | c :: rest, acc, segs =>
    if c = Char.ofNat 47 then phase2 rest 0 (segs ++ [acc])
    else
      match strchrValid c with
      | none => ParseResult.invalidChar
      | some val =>
        if HARDENED ≤ acc then ParseResult.malformedHardening
        else if val < 10 then phase2 rest ((acc * 10 + val) % U32) segs
        else phase2 rest ((acc + HARDENED) % U32) segs

/-- Offset of the cur pointer from the start of path: the source advances it
by two when the first byte is the letter m (byte 109). Reading byte 0 is
always in bounds, covering the NUL of the empty string. -/
def mSkipOff (path : List Char) : Nat :=
  if (readAt path 0).getD NUL = Char.ofNat 109 then 2 else 0

/-- The len variable after the leading-m adjustment: len -= 2 in size_t
arithmetic, which underflows for the one-character string m. -/
def mSkipLen (path : List Char) : Nat :=
  if (readAt path 0).getD NUL = Char.ofNat 109 then (path.length + SIZE_MOD - 2) % SIZE_MOD
  else path.length

/-- Absolute byte offset of the trailing-slash probe cur[len - 1], with both
the index arithmetic and the pointer arithmetic wrapping modulo 2^64: for the
empty string this is offset 2^64 - 1, one byte before the buffer. -/
def trailIdx (path : List Char) : Nat :=
  (mSkipOff path + mSkipLen path + SIZE_MOD - 1) % SIZE_MOD

/-- Setup and first loop of parse_derivation (keystore.c lines 11 to 32):
strlen, the skip of two bytes when the first byte is the letter m, the strip
of a trailing slash (both length updates in size_t arithmetic, so they can
underflow), and the character validation loop. Returns the validated
character region that the second loop will reread. -/
def parseScan (path : List Char) : ScanResult :=
  match readAt path (trailIdx path) with
  | none => ScanResult.oob
  | some ct =>
    scanRegion path (mSkipOff path)
      (if ct = Char.ofNat 47 then (mSkipLen path + SIZE_MOD - 1) % SIZE_MOD else mSkipLen path) []

/-- parse_derivation (keystore.c lines 11 to 54): validation pass followed by
the accumulation pass over the same bytes. -/
def parse_derivation (path : List Char) : ParseResult :=
  match parseScan path with
  | ScanResult.oob => ParseResult.oob
  | ScanResult.invalidChar => ParseResult.invalidChar
  | ScanResult.ok region => phase2 region 0 []

/-- One key-origin entry of a psbt keypaths map. The four fingerprint bytes
compared by memcmp are modelled as one natural number; the derivation path is
the list of child indices. -/
structure KeyOrigin where
  fingerprint : Nat
  path : List Nat
deriving DecidableEq

instance : Inhabited KeyOrigin := ⟨⟨0, []⟩⟩

/-- One psbt input: keypaths is none when the map pointer is NULL, and
witness_utxo keeps only the satoshi amount, none when that pointer is NULL. -/
structure PsbtInput where
  keypaths : Option (List KeyOrigin)
  witness_utxo : Option Nat
deriving DecidableEq

/-- One psbt output together with the script of the corresponding transaction
output (psbt outputs and tx outputs are parallel arrays in wally). -/
structure PsbtOutput where
  keypaths : Option (List KeyOrigin)
  script : List Nat
deriving DecidableEq

instance : Inhabited PsbtOutput := ⟨⟨none, []⟩⟩

/-- The parts of struct wally_psbt consumed by the keystore component. -/
structure Psbt where
  inputs : List PsbtInput
  outputs : List PsbtOutput
deriving DecidableEq

/-- Return value of keystore_check_psbt: ok is the zero return, the other
three are KEYSTORE_PSBTERR_CANNOT_SIGN, KEYSTORE_PSBTERR_MIXED_INPUTS and
KEYSTORE_PSBTERR_UNSUPPORTED_POLICY. -/
inductive PsbtCheck where
  | ok
  | cannotSign
  | mixedInputs
  | unsupportedPolicy
deriving DecidableEq

/-- The inner fingerprint scan of keystore_check_psbt (lines 172 to 177):
whether some keypath of the items carries the keystore fingerprint. -/
def anyMatch (fp : Nat) (items : List KeyOrigin) : Bool :=
  items.any (fun it => it.fingerprint == fp)

/-- Whether an input is signable by the keystore: its keypaths map is present
and some entry carries the keystore fingerprint. -/
def signableInput (fp : Nat) (inp : PsbtInput) : Bool :=
  match inp.keypaths with
  | none => false
  | some items => anyMatch fp items

/-- Whether an input has a keypaths map with exactly one entry. -/
def hasSingleKeypath (inp : PsbtInput) : Bool :=
  match inp.keypaths with
  | none => false
  | some items => items.length == 1

/-- Whether an input either has no keypaths map at all or has a single
keypath entry that does not carry the keystore fingerprint. -/
def cannotSignClean (fp : Nat) (inp : PsbtInput) : Bool :=
  match inp.keypaths with
  | none => true
  | some items => items.length == 1 && !(anyMatch fp items)

/-- Loop of keystore_check_psbt (lines 166 to 190) with the err variable
threaded through: a NULL keypaths map returns CANNOT_SIGN at once; a signable
input clears err; a non-signable input returns MIXED_INPUTS when err was
already cleared; and every input that got this far is checked for having
exactly one keypath entry, returning UNSUPPORTED_POLICY otherwise. -/
def keystore_check_psbt_loop (fp : Nat) : List PsbtInput → PsbtCheck → PsbtCheck
  | [], err => err
  | inp :: rest, err =>
    match inp.keypaths with
    | none => PsbtCheck.cannotSign
    | some items =>
      if anyMatch fp items then
        if items.length ≠ 1 then PsbtCheck.unsupportedPolicy
        else keystore_check_psbt_loop fp rest PsbtCheck.ok
      else if err = PsbtCheck.ok then PsbtCheck.mixedInputs
      else if items.length ≠ 1 then PsbtCheck.unsupportedPolicy
      else keystore_check_psbt_loop fp rest err

/-- keystore_check_psbt (lines 160 to 193): err starts as CANNOT_SIGN and the
loop result is returned. The keystore is represented by the four fingerprint
bytes that the memcmp of the loop compares against. -/
def keystore_check_psbt (fp : Nat) (psbt : Psbt) : PsbtCheck :=
  keystore_check_psbt_loop fp psbt.inputs PsbtCheck.cannotSign

/-- External collaborators of keystore_sign_psbt: mkSig bundles the per-input
bip32 derivation, sighash computation, ECDSA signing and DER encoding (lines
269 to 309), and toBase64 is wally_psbt_to_base64 over the accumulated
partial signatures of the signed psbt. -/
structure SignEnv where
  mkSig : PsbtInput → Nat → List Nat
  toBase64 : Psbt → List (List Nat) → List Nat

/-- Loop of keystore_sign_psbt (lines 262 to 311): the first input whose
witness_utxo pointer is NULL makes the function return -1 before
wally_psbt_to_base64 ever runs, so the output slot stays unwritten (none);
otherwise the partial signature of the input is accumulated and, after the
loop, the base64 blob is produced with return value 0. -/
def keystore_sign_psbt_loop (env : SignEnv) (psbt : Psbt) :
    List PsbtInput → List (List Nat) → Int × Option (List Nat)
  | [], acc => (0, some (env.toBase64 psbt acc))
  | inp :: rest, acc =>
    match inp.witness_utxo with
    | none => (-1, none)
    | some sat => keystore_sign_psbt_loop env psbt rest (acc ++ [env.mkSig inp sat])

/-- keystore_sign_psbt (lines 253 to 316), returning the return code together
with the contents written into the output parameter. -/
def keystore_sign_psbt (env : SignEnv) (psbt : Psbt) : Int × Option (List Nat) :=
  keystore_sign_psbt_loop env psbt psbt.inputs []

/-- Script type constants of wally_script.h used by the change detector. -/
def WALLY_SCRIPT_TYPE_P2PKH : Nat := 2

def WALLY_SCRIPT_TYPE_P2SH : Nat := 4

def WALLY_SCRIPT_TYPE_P2WPKH : Nat := 8

/-- Address type constants of wally_address.h. -/
def WALLY_ADDRESS_TYPE_P2PKH : Nat := 1

def WALLY_ADDRESS_TYPE_P2SH_P2WPKH : Nat := 2

/-- Mainnet address version bytes: the change detector hardcodes the Mainnet
network table. -/
def Mainnet_p2pkh : Nat := 0

def Mainnet_p2sh : Nat := 5

/-- External collaborators of keystore_output_is_change, closed over the
hardcoded Mainnet table: derive is bip32_key_from_parent_path_alloc from the
keystore root, scriptType is wally_scriptpubkey_get_type, and the remaining
oracles are the address renderings used on each side of the strcmp. -/
structure ChangeEnv where
  derive : List Nat → Nat
  scriptType : List Nat → Nat
  addrSegwitFromBytes : List Nat → List Char
  keyToAddrSegwit : Nat → List Char
  base58check : List Nat → List Char
  keyToAddress : Nat → Nat → List Char

/-- The 21 byte buffer built for a script-hash output: the Mainnet p2sh
version byte followed by the 20 hash bytes copied from script offset 2. -/
def p2shBytes (script : List Nat) : List Nat :=
  Mainnet_p2sh :: ((script.drop 2).take 20)

/-- The 21 byte buffer built for a legacy pubkey-hash output: the Mainnet
p2pkh version byte followed by the 20 hash bytes copied from script offset 3. -/
def p2pkhBytes (script : List Nat) : List Nat :=
  Mainnet_p2pkh :: ((script.drop 3).take 20)

/-- keystore_output_is_change (lines 195 to 251): an index at or past the
number of outputs returns false at once; an output with no keypaths map, or
with a number of entries other than one, is never change; otherwise the key
at the recorded derivation path is derived and the rendered output address is
compared with the address of the derived key for the recognized script types,
any other script type giving false. -/
def keystore_output_is_change (env : ChangeEnv) (psbt : Psbt) (i : Nat) : Bool :=
  if psbt.outputs.length ≤ i then false
  else
    let out := psbt.outputs.getD i default
    match out.keypaths with
    | none => false
    | some items =>
      if items.length ≠ 1 then false
      else
        let pk := env.derive (items.getD 0 default).path
        let st := env.scriptType out.script
        if st = WALLY_SCRIPT_TYPE_P2WPKH then
          env.addrSegwitFromBytes out.script == env.keyToAddrSegwit pk
        else if st = WALLY_SCRIPT_TYPE_P2SH then
          env.base58check (p2shBytes out.script) ==
            env.keyToAddress pk WALLY_ADDRESS_TYPE_P2SH_P2WPKH
        else if st = WALLY_SCRIPT_TYPE_P2PKH then
          env.base58check (p2pkhBytes out.script) ==
            env.keyToAddress pk WALLY_ADDRESS_TYPE_P2PKH
        else false

/-- The network_t table fields consumed by keystore_get_xpub. -/
structure NetworkT where
  xpub : Nat
  ypub : Nat
  zpub : Nat
  Ypub : Nat
  Zpub : Nat
  xprv : Nat
deriving DecidableEq

/-- Big-endian serialization of a uint32 version word, as produced by
cpu_to_be32 followed by the four byte memcpy into the header. -/
def be32 (v : Nat) : List Nat :=
  [v / 16777216 % 256, v / 65536 % 256, v / 256 % 256, v % 256]

/-- Version word selection of keystore_get_xpub (lines 96 to 128), translated
from the switch over derivation[0], with the nested switch over derivation[3]
guarded by len being at least 4; every fall-through keeps the plain xpub
version preloaded before the switch. -/
def xpubVersion (network : NetworkT) (use_slip132 : Bool) (derivation : List Nat) : Nat :=
  if 0 < derivation.length ∧ use_slip132 = true then
    if derivation.getD 0 0 = HARDENED + 84 then network.zpub
    else if derivation.getD 0 0 = HARDENED + 49 then network.ypub
    else if derivation.getD 0 0 = HARDENED + 48 then
      if 4 ≤ derivation.length then
        if derivation.getD 3 0 = HARDENED + 1 then network.Ypub
        else if derivation.getD 3 0 = HARDENED + 2 then network.Zpub
        else network.xpub
      else network.xpub
    else network.xpub
  else network.xpub

/-- External collaborators of keystore_get_xpub: derive is
bip32_key_from_parent_path_alloc from the keystore root, serialize is
bip32_key_serialize in public form of the derived child whose version field
was set to the network xprv word, and base58check is wally_base58_from_bytes
with the checksum flag, producing the output string. -/
structure XpubEnv where
  derive : List Nat → Nat
  serialize : Nat → Nat → List Nat
  base58check : List Nat → List Char

/-- The serialized buffer of keystore_get_xpub right before base58 encoding
(lines 84 to 129): a failed path parse returns -1 (none); otherwise the first
four bytes of the bip32 serialization are overwritten with the selected
version word. -/
def keystore_get_xpub_raw (env : XpubEnv) (path : List Char) (network : NetworkT)
    (use_slip132 : Bool) : Option (List Nat) :=
  match parse_derivation path with
  | ParseResult.ok derivation =>
    let child := env.derive derivation
    let raw := env.serialize child network.xprv
    some (be32 (xpubVersion network use_slip132 derivation) ++ raw.drop 4)
  | _ => none

/-- keystore_get_xpub: the base58check rendering of the patched buffer. -/
def keystore_get_xpub (env : XpubEnv) (path : List Char) (network : NetworkT)
    (use_slip132 : Bool) : Option (List Char) :=
  (keystore_get_xpub_raw env path network use_slip132).map env.base58check

/-- Version selection as worded by the specification (section 4.3): inspect
the first path element, 84 hardened gives the native segwit tag, 49 hardened
the wrapped segwit tag, 48 hardened with a fourth element equal to 1 hardened
the multisig wrapped tag and equal to 2 hardened the multisig native tag,
otherwise the plain extended-public version of the network. -/
def xpubVersionSpec (network : NetworkT) (derivation : List Nat) : Nat :=
  match derivation with
  | [] => network.xpub
  | d0 :: _ =>
    if d0 = HARDENED + 84 then network.zpub
    else if d0 = HARDENED + 49 then network.ypub
    else if d0 = HARDENED + 48 then
      match derivation.get? 3 with
      | some d3 =>
        if d3 = HARDENED + 1 then network.Ypub
        else if d3 = HARDENED + 2 then network.Zpub
        else network.xpub
      | none => network.xpub
    else network.xpub

/-- Return value of keystore_check_wallet: ok is the zero return, the others
are KEYSTORE_WALLET_ERR_PARSING, KEYSTORE_WALLET_ERR_NOT_INCLUDED and
KEYSTORE_WALLET_ERR_WRONG_XPUB. -/
inductive WalletCheck where
  | ok
  | errParsing
  | errNotIncluded
  | errWrongXpub
deriving DecidableEq

/-- Cosigner loop of keystore_check_wallet (lines 466 to 498) over the
entries already tokenized by sscanf, each a bracketed derivation field and an
xpub field. When the first eight bytes of the derivation field equal the
keystore fingerprint, the local xpub is computed twice from the field past
byte 9: exactly as in the source, BOTH keystore_get_xpub calls pass
use_slip132 = 0 (lines 478 and 479, the second call, bound to myslippub,
also passes 0). A match against either rendering clears err and the loop
goes on; a mismatch or a failed derivation returns WRONG_XPUB at once. -/
def keystore_check_wallet_loop (env : XpubEnv) (network : NetworkT) (fp : List Char) :
    List (List Char × List Char) → WalletCheck → WalletCheck
  | [], err => err
  | entry :: rest, err =>
    if entry.1.take 8 = fp then
      match keystore_get_xpub env (entry.1.drop 9) network false with
      | none => WalletCheck.errWrongXpub
      | some myslippub =>
        let mypub := (keystore_get_xpub env (entry.1.drop 9) network false).getD myslippub
        if mypub = entry.2 ∨ myslippub = entry.2 then
          keystore_check_wallet_loop env network fp rest WalletCheck.ok
        else WalletCheck.errWrongXpub
    else keystore_check_wallet_loop env network fp rest err

/-- keystore_check_wallet after its sscanf header parsing, over the tokenized
cosigner entries: err starts as NOT_INCLUDED. -/
def keystore_check_wallet (env : XpubEnv) (network : NetworkT) (fp : List Char)
    (entries : List (List Char × List Char)) : WalletCheck :=
  keystore_check_wallet_loop env network fp entries WalletCheck.errNotIncluded

/-- Environment, network and path constants used by the concrete xpub and
wallet-check runs: the serialization oracle returns a recognizable seven byte
buffer whose first four bytes get overwritten, and base58check is modelled
injectively as a byte-to-character rendering. -/
def envX : XpubEnv :=
  ⟨fun _ => 0, fun _ _ => [9, 9, 9, 9, 5, 6, 7], fun bytes => bytes.map Char.ofNat⟩

/-- A network table with pairwise distinct version words. -/
def netX : NetworkT := ⟨1, 3, 2, 4, 5, 6⟩

/-- The path string 84h. -/
def path84h : List Char := [Char.ofNat 56, Char.ofNat 52, Char.ofNat 104]

/-- The eight character fingerprint 00000000 of the concrete keystore. -/
def fpW : List Char := List.replicate 8 (Char.ofNat 48)

/-- The bracketed derivation field [00000000/84h] of the concrete cosigner
entry, without the brackets that sscanf already stripped. -/
def derFieldW : List Char := fpW ++ [Char.ofNat 47] ++ path84h

/-- The recorded xpub of the concrete cosigner entry: the SLIP132 rendering
of the locally derived key, that is keystore_get_xpub with use_slip132
requested on the same path. -/
def recordedW : List Char := (keystore_get_xpub envX path84h netX true).getD []

/-- Every character collected by a successful scan was found by strchr. -/
theorem scanRegion_valid (s : List Char) :
    ∀ (rem off : Nat) (acc r : List Char), scanRegion s off rem acc = ScanResult.ok r →
      (∀ x ∈ acc, (strchrValid x).isSome) → ∀ x ∈ r, (strchrValid x).isSome := by
  intro rem
  induction rem with
  | zero =>
    intro off acc r h hacc x hx
    simp only [scanRegion, ScanResult.ok.injEq] at h
    subst h
    exact hacc x (List.mem_reverse.mp hx)
  | succ n ih =>
    intro off acc r h hacc x hx
    simp only [scanRegion] at h
    split at h
    · exact absurd h (by simp)
    · split at h
      · exact absurd h (by simp)
      · rename_i od c hread oi v hv
        refine ih (off + 1) (c :: acc) r h ?_ x hx
        intro y hy
        rcases List.mem_cons.mp hy with hy | hy
        · subst hy; simp [hv]
        · exact hacc y hy

/-- Every character of the region returned by parseScan was found by strchr
(so in particular it is admissible input for the second loop). -/
theorem parseScan_valid (path : List Char) (r : List Char)
    (h : parseScan path = ScanResult.ok r) : ∀ x ∈ r, (strchrValid x).isSome := by
  unfold parseScan at h
  cases hct : readAt path (trailIdx path) with
  | none => rw [hct] at h; cases h
  | some ct =>
    rw [hct] at h
    exact scanRegion_valid path _ _ [] r h (by intro y hy; cases hy)

/-- Processing any prefix of strchr-found characters cannot rescue a run
whose remaining characters always end in the malformed-hardening return. -/
theorem phase2_malformed_lift (tail : List Char)
    (htail : ∀ (a : Nat) (segs : List Nat), phase2 tail a segs = ParseResult.malformedHardening) :
    ∀ (pre : List Char), (∀ x ∈ pre, (strchrValid x).isSome) →
      ∀ (acc : Nat) (segs : List Nat),
        phase2 (pre ++ tail) acc segs = ParseResult.malformedHardening := by
  intro pre
  induction pre with
  | nil => intro _ acc segs; simpa using htail acc segs
  | cons x pre ih =>
    intro hvalid acc segs
    have hx : (strchrValid x).isSome := hvalid x (List.mem_cons_self x pre)
    have hrest : ∀ y ∈ pre, (strchrValid y).isSome :=
      fun y hy => hvalid y (List.mem_cons_of_mem x hy)
    simp only [List.cons_append, phase2]
    by_cases hslash : x = Char.ofNat 47
    · rw [if_pos hslash]
      exact ih hrest 0 (segs ++ [acc])
    · rw [if_neg hslash]
      cases hs : strchrValid x with
      | none => rw [hs] at hx; cases hx
      | some v =>
        by_cases hh : HARDENED ≤ acc
        · simp [hh]
        · by_cases hv : v < 10
          · simp only [hh, if_false, hv, if_true]
            exact ih hrest _ segs
          · simp only [hh, if_false, hv, if_true]
            exact ih hrest _ segs

/-- Once the accumulator of the second loop is in the hardened range, the
next strchr-found character of the segment triggers the malformed-hardening
return. -/
theorem phase2_hardened_head (l : List Char) (y : Char) (hy : (strchrValid y).isSome)
    (hys : y ≠ Char.ofNat 47) (acc : Nat) (hacc : HARDENED ≤ acc) (segs : List Nat) :
    phase2 (y :: l) acc segs = ParseResult.malformedHardening := by
  obtain ⟨v, hv⟩ := Option.isSome_iff_exists.mp hy
  simp [phase2, hys, hv, hacc]

/-- A hardening marker followed, within the same segment, by any further
strchr-found character makes the second loop end in the malformed-hardening
return, whatever the accumulator and segments were when the marker was
reached. -/
theorem phase2_marker_fails (mk c : Char) (mid post : List Char)
    (hmk : mk = Char.ofNat 39 ∨ mk = Char.ofNat 104)
    (hmid : ∀ x ∈ mid, (strchrValid x).isSome ∧ x ≠ Char.ofNat 47)
    (hcv : (strchrValid c).isSome) (hc : c ≠ Char.ofNat 47) :
    ∀ (acc : Nat) (segs : List Nat),
      phase2 (mk :: (mid ++ c :: post)) acc segs = ParseResult.malformedHardening := by
  intro acc segs
  have hmkv : strchrValid mk = some 11 ∨ strchrValid mk = some 12 := by
    rcases hmk with h | h <;> subst h
    · left; decide
    · right; decide
  have hmks : mk ≠ Char.ofNat 47 := by
    rcases hmk with h | h <;> subst h <;> decide
  have hstep : ∀ (acc2 : Nat), HARDENED ≤ acc2 →
      phase2 (mid ++ c :: post) acc2 segs = ParseResult.malformedHardening := by
    intro acc2 hacc2
    cases mid with
    | nil => simpa using phase2_hardened_head post c hcv hc acc2 hacc2 segs
    | cons y mid2 =>
      have hy := hmid y (List.mem_cons_self y mid2)
      simpa using phase2_hardened_head (mid2 ++ c :: post) y hy.1 hy.2 acc2 hacc2 segs
  by_cases hh : HARDENED ≤ acc
  · rcases hmkv with hv | hv <;>
      simp [phase2, hmks, hv, hh]
  · have hlt : acc < HARDENED := Nat.lt_of_not_le hh
    have hmod : (acc + HARDENED) % U32 = acc + HARDENED := by
      apply Nat.mod_eq_of_lt
      have : HARDENED + HARDENED = U32 := by decide
      omega
    have hge : HARDENED ≤ (acc + HARDENED) % U32 := by omega
    rcases hmkv with hv | hv <;>
      simp only [phase2, if_neg hmks, hv, if_neg hh] <;>
      simpa using hstep _ hge

/-- Claim C7: once a segment of the path has entered the hardened range by a
hardening marker (apostrophe or the letter h), any further character of the
same segment (digit or marker, anything the validation loop admitted other
than a slash) makes parse_derivation reject the whole path through its
anything-after-hardened check, the return site modelled as
malformedHardening. The region hypothesis states that the validated
character region of the run decomposes around such a marker. -/
theorem parse_hardened_then_more (path pre mid post : List Char) (mk c : Char)
    (hscan : parseScan path = ScanResult.ok (pre ++ mk :: (mid ++ c :: post)))
    (hmk : mk = Char.ofNat 39 ∨ mk = Char.ofNat 104)
    (hmid : ∀ x ∈ mid, x ≠ Char.ofNat 47)
    (hc : c ≠ Char.ofNat 47) :
    parse_derivation path = ParseResult.malformedHardening := by
  have hvalid := parseScan_valid path _ hscan
  have hpre : ∀ x ∈ pre, (strchrValid x).isSome := by
    intro x hx
    exact hvalid x (List.mem_append_left _ hx)
  have hcv : (strchrValid c).isSome := by
    refine hvalid c (List.mem_append_right _ ?_)
    exact List.mem_cons_of_mem mk (List.mem_append_right _ (List.mem_cons_self c post))
  have hmidv : ∀ x ∈ mid, (strchrValid x).isSome ∧ x ≠ Char.ofNat 47 := by
    intro x hx
    refine ⟨hvalid x (List.mem_append_right _ ?_), hmid x hx⟩
    exact List.mem_cons_of_mem mk (List.mem_append_left _ hx)
  unfold parse_derivation
  rw [hscan]
  exact phase2_malformed_lift (mk :: (mid ++ c :: post))
    (phase2_marker_fails mk c mid post hmk hmidv hcv hc) pre hpre 0 []

/-- Witness for claim C7 at the concrete path 5h3: a digit follows the
hardening marker inside one segment and the parser rejects. -/
theorem parse_hardened_then_more_witness :
    parse_derivation [Char.ofNat 53, Char.ofNat 104, Char.ofNat 51] =
      ParseResult.malformedHardening :=
  parse_hardened_then_more [Char.ofNat 53, Char.ofNat 104, Char.ofNat 51]
    [Char.ofNat 53] [] [] (Char.ofNat 104) (Char.ofNat 51)
    (by decide) (by decide) (by intro x hx; cases hx) (by decide)

/-- Claim C3: parse_derivation is not memory safe on adversarial input. On
the empty string the trailing-slash probe reads the byte before the buffer;
on the one-character string m the length underflows in size_t and the
validation loop reads past the terminator; on the two-character string m/
the trailing-slash strip underflows the length and the loop runs past the
terminator. All three runs end in an out-of-bounds access instead of a
result or a clean failure. -/
theorem parse_derivation_oob_inputs :
    parse_derivation [] = ParseResult.oob ∧
    parse_derivation [Char.ofNat 109] = ParseResult.oob ∧
    parse_derivation [Char.ofNat 109, Char.ofNat 47] = ParseResult.oob := by
  decide

/-- Claim C8: parsing the empty path string does not yield a derivation of
length 0: the run performs an out-of-bounds read while probing for a
trailing slash. Moreover, even if that read were benign, the second loop of
the source started from the empty region yields the one-element derivation
containing 0 (derivationLen is initialized to 1), never the empty one. -/
theorem parse_empty_oob_not_root :
    parse_derivation [] = ParseResult.oob ∧
    phase2 [] 0 [] = ParseResult.ok [0] := by
  decide

/-- A single-keypath input has an items list, and its signability is the
fingerprint scan over that list. -/
theorem signable_of_single (fp : Nat) (inp : PsbtInput) (h : hasSingleKeypath inp = true) :
    ∃ items, inp.keypaths = some items ∧ items.length = 1 ∧
      signableInput fp inp = anyMatch fp items := by
  cases hk : inp.keypaths with
  | none => simp [hasSingleKeypath, hk] at h
  | some items =>
    refine ⟨items, rfl, ?_, by simp [signableInput, hk]⟩
    simpa [hasSingleKeypath, hk] using h

/-- After err has been cleared, a later non-signable input makes the loop
return MIXED_INPUTS, provided every input of the remaining list has exactly
one keypath entry. -/
theorem check_loop_ok_nonsignable (fp : Nat) :
    ∀ (l : List PsbtInput), l.all hasSingleKeypath = true →
      ∀ (k : Nat) (b : PsbtInput), l.get? k = some b → signableInput fp b = false →
        keystore_check_psbt_loop fp l PsbtCheck.ok = PsbtCheck.mixedInputs := by
  intro l
  induction l with
  | nil => intro _ k b hb; simp at hb
  | cons x rest ih =>
    intro hall k b hget hb
    have hallx : hasSingleKeypath x = true ∧ rest.all hasSingleKeypath = true := by
      simpa using hall
    obtain ⟨items, hitems, hlen, hsig⟩ := signable_of_single fp x hallx.1
    simp only [keystore_check_psbt_loop, hitems]
    by_cases hm : anyMatch fp items = true
    · rw [if_pos hm, if_neg (by omega : ¬ items.length ≠ 1)]
      cases k with
      | zero =>
        exfalso
        have hbx : b = x := by simpa using hget.symm
        rw [hbx, hsig] at hb
        rw [hm] at hb
        cases hb
      | succ k => exact ih hallx.2 k b (by simpa using hget) hb
    · rw [if_neg hm]
      simp

/-- When a signable input appears strictly before a non-signable one in a
list of single-keypath inputs, the loop started with err equal to ok or to
CANNOT_SIGN returns MIXED_INPUTS. -/
theorem check_loop_mixed (fp : Nat) :
    ∀ (l : List PsbtInput) (err : PsbtCheck),
      (err = PsbtCheck.ok ∨ err = PsbtCheck.cannotSign) →
      l.all hasSingleKeypath = true →
      ∀ (i k : Nat) (a b : PsbtInput), i < k →
        l.get? i = some a → signableInput fp a = true →
        l.get? k = some b → signableInput fp b = false →
        keystore_check_psbt_loop fp l err = PsbtCheck.mixedInputs := by
  intro l
  induction l with
  | nil => intro err _ _ i k a b _ ha; simp at ha
  | cons x rest ih =>
    intro err herr hall i k a b hik ha hsa hb hsb
    have hallx : hasSingleKeypath x = true ∧ rest.all hasSingleKeypath = true := by
      simpa using hall
    obtain ⟨items, hitems, hlen, hsig⟩ := signable_of_single fp x hallx.1
    simp only [keystore_check_psbt_loop, hitems]
    by_cases hm : anyMatch fp items = true
    · rw [if_pos hm, if_neg (by omega : ¬ items.length ≠ 1)]
      cases k with
      | zero => omega
      | succ k =>
        exact check_loop_ok_nonsignable fp rest hallx.2 k b (by simpa using hb) hsb
    · cases i with
      | zero =>
        exfalso
        have hax : a = x := by simpa using ha.symm
        rw [hax, hsig] at hsa
        exact hm hsa
      | succ i =>
        cases k with
        | zero => omega
        | succ k =>
          rw [if_neg hm]
          rcases herr with herr | herr
          · rw [herr, if_pos rfl]
          · rw [herr]
            rw [if_neg (by simp), if_neg (by omega : ¬ items.length ≠ 1)]
            exact ih PsbtCheck.cannotSign (Or.inr rfl) hallx.2 i k a b (by omega)
              (by simpa using ha) hsa (by simpa using hb) hsb

/-- Claim C1, corrected: MIXED_INPUTS is returned when a signable input
appears strictly before a non-signable one (every input carrying exactly one
keypath entry, so that no earlier return preempts the check). The original
either-order claim fails: the counterexample shows that a non-signable input
followed by a signable one yields ok instead. -/
theorem check_psbt_mixed_needs_order (fp : Nat) (psbt : Psbt) (i k : Nat) (a b : PsbtInput)
    (hall : psbt.inputs.all hasSingleKeypath = true) (hik : i < k)
    (ha : psbt.inputs.get? i = some a) (hsa : signableInput fp a = true)
    (hb : psbt.inputs.get? k = some b) (hsb : signableInput fp b = false) :
    keystore_check_psbt fp psbt = PsbtCheck.mixedInputs :=
  check_loop_mixed fp psbt.inputs PsbtCheck.cannotSign (Or.inr rfl) hall i k a b hik
    ha hsa hb hsb

/-- Witness for the corrected claim C1: fingerprint 1, a signable input
before a non-signable one, result MIXED_INPUTS. -/
theorem check_psbt_mixed_needs_order_witness :
    keystore_check_psbt 1 ⟨[⟨some [⟨1, []⟩], none⟩, ⟨some [⟨2, []⟩], none⟩], []⟩ =
      PsbtCheck.mixedInputs :=
  check_psbt_mixed_needs_order 1 ⟨[⟨some [⟨1, []⟩], none⟩, ⟨some [⟨2, []⟩], none⟩], []⟩
    0 1 ⟨some [⟨1, []⟩], none⟩ ⟨some [⟨2, []⟩], none⟩
    (by decide) (by decide) (by decide) (by decide) (by decide) (by decide)

/-- Counterexample to claim C1 as stated: with the non-signable input first,
the proposal has one signable and one non-signable input, yet checkPolicy
returns ok rather than MIXED_INPUTS; and when the leading non-signable input
carries two keypaths, it returns UNSUPPORTED_POLICY instead. The result is
not independent of the order of appearance. -/
theorem check_psbt_order_counterexample :
    keystore_check_psbt 1 ⟨[⟨some [⟨2, []⟩], none⟩, ⟨some [⟨1, []⟩], none⟩], []⟩ =
      PsbtCheck.ok ∧
    keystore_check_psbt 1 ⟨[⟨some [⟨2, []⟩, ⟨3, []⟩], none⟩, ⟨some [⟨1, []⟩], none⟩], []⟩ =
      PsbtCheck.unsupportedPolicy := by
  decide

/-- A list in which every input either lacks a keypaths map or has a single
entry not carrying the fingerprint keeps err at CANNOT_SIGN to the end. -/
theorem check_loop_cannot (fp : Nat) :
    ∀ (l : List PsbtInput), l.all (cannotSignClean fp) = true →
      keystore_check_psbt_loop fp l PsbtCheck.cannotSign = PsbtCheck.cannotSign := by
  intro l
  induction l with
  | nil => intro _; rfl
  | cons x rest ih =>
    intro hall
    have hallx : cannotSignClean fp x = true ∧ rest.all (cannotSignClean fp) = true := by
      simpa using hall
    cases hk : x.keypaths with
    | none => simp [keystore_check_psbt_loop, hk]
    | some items =>
      have hx := hallx.1
      rw [cannotSignClean, hk] at hx
      have hlen : items.length = 1 := by
        have := (Bool.and_eq_true _ _).mp hx
        simpa using this.1
      have hm : anyMatch fp items = false := by
        have := (Bool.and_eq_true _ _).mp hx
        simpa using this.2
      simp only [keystore_check_psbt_loop, hk]
      rw [if_neg (by simp [hm]), if_neg (by simp), if_neg (by omega : ¬ items.length ≠ 1)]
      exact ih hallx.2

/-- Claim C5, corrected: CANNOT_SIGN is returned when the first input lacks a
keypaths map, and when no input is signable while every input that has a
keypaths map has exactly one entry (this covers the zero-input proposal and
proposals whose non-signable inputs include keypath-less ones). In general a
keypath-less input only yields CANNOT_SIGN when no earlier input already
returned MIXED_INPUTS or UNSUPPORTED_POLICY, as the counterexample shows. -/
theorem check_psbt_cannot_sign_cases (fp : Nat) (psbt : Psbt)
    (h : (∃ x rest, psbt.inputs = x :: rest ∧ x.keypaths = none) ∨
         psbt.inputs.all (cannotSignClean fp) = true) :
    keystore_check_psbt fp psbt = PsbtCheck.cannotSign := by
  rcases h with ⟨x, rest, hl, hx⟩ | h
  · unfold keystore_check_psbt
    rw [hl]
    simp [keystore_check_psbt_loop, hx]
  · exact check_loop_cannot fp psbt.inputs h

/-- Witness for the corrected claim C5: the zero-input proposal returns
CANNOT_SIGN. -/
theorem check_psbt_cannot_sign_cases_witness :
    keystore_check_psbt 1 ⟨[], []⟩ = PsbtCheck.cannotSign :=
  check_psbt_cannot_sign_cases 1 ⟨[], []⟩ (Or.inr (by decide))

/-- Counterexample to claim C5 as stated: a proposal containing a
keypath-less input returns MIXED_INPUTS when an earlier signable input is
followed by a non-signable one; and a proposal none of whose keypaths carry
the fingerprint returns UNSUPPORTED_POLICY when an input has two keypath
entries. Neither run returns CANNOT_SIGN. -/
theorem check_psbt_cannot_sign_counterexample :
    keystore_check_psbt 1
        ⟨[⟨some [⟨1, []⟩], none⟩, ⟨some [⟨2, []⟩], none⟩, ⟨none, none⟩], []⟩ =
      PsbtCheck.mixedInputs ∧
    keystore_check_psbt 1 ⟨[⟨some [⟨2, []⟩, ⟨3, []⟩], none⟩], []⟩ =
      PsbtCheck.unsupportedPolicy := by
  decide

/-- A leading block of non-signable single-keypath inputs leaves the loop in
its initial CANNOT_SIGN state. -/
theorem check_loop_skip_nonsignable (fp : Nat) :
    ∀ (A tail : List PsbtInput),
      A.all (fun p => hasSingleKeypath p && !signableInput fp p) = true →
      keystore_check_psbt_loop fp (A ++ tail) PsbtCheck.cannotSign =
        keystore_check_psbt_loop fp tail PsbtCheck.cannotSign := by
  intro A
  induction A with
  | nil => intro tail _; rfl
  | cons x A2 ih =>
    intro tail hall
    have hallx : (hasSingleKeypath x && !signableInput fp x) = true ∧
        A2.all (fun p => hasSingleKeypath p && !signableInput fp p) = true := by
      simpa using hall
    obtain ⟨hx1, hx2⟩ := (Bool.and_eq_true _ _).mp hallx.1
    obtain ⟨items, hitems, hlen, hsig⟩ := signable_of_single fp x hx1
    have hm : anyMatch fp items = false := by
      rw [← hsig]
      simpa using hx2
    simp only [List.cons_append, keystore_check_psbt_loop, hitems]
    rw [if_neg (by simp [hm]), if_neg (by simp), if_neg (by omega : ¬ items.length ≠ 1)]
    exact ih tail hallx.2

/-- A nonempty block of signable single-keypath inputs drives err to ok,
whatever it was. -/
theorem check_loop_skip_signable (fp : Nat) :
    ∀ (B tail : List PsbtInput) (err : PsbtCheck),
      B.all (fun p => hasSingleKeypath p && signableInput fp p) = true → B ≠ [] →
      keystore_check_psbt_loop fp (B ++ tail) err =
        keystore_check_psbt_loop fp tail PsbtCheck.ok := by
  intro B
  induction B with
  | nil => intro tail err _ hne; exact absurd rfl hne
  | cons x B2 ih =>
    intro tail err hall _
    have hallx : (hasSingleKeypath x && signableInput fp x) = true ∧
        B2.all (fun p => hasSingleKeypath p && signableInput fp p) = true := by
      simpa using hall
    obtain ⟨hx1, hx2⟩ := (Bool.and_eq_true _ _).mp hallx.1
    obtain ⟨items, hitems, hlen, hsig⟩ := signable_of_single fp x hx1
    have hm : anyMatch fp items = true := by rw [← hsig]; exact hx2
    simp only [List.cons_append, keystore_check_psbt_loop, hitems]
    rw [if_pos hm, if_neg (by omega : ¬ items.length ≠ 1)]
    cases B2 with
    | nil => rfl
    | cons y B3 => exact ih tail PsbtCheck.ok hallx.2 (by simp)

/-- Claim C10, corrected: an input with a keypaths map of size other than one
yields UNSUPPORTED_POLICY even when none of its keypaths carries the
fingerprint, provided no earlier input already triggered a return AND the
input itself does not trigger the MIXED_INPUTS check, which textually
precedes the keypath-count check: the earlier inputs must be non-signable
single-keypath ones followed by signable single-keypath ones, and if any
earlier input is signable the offending input must be signable too. -/
theorem check_psbt_unsupported_amended (fp : Nat) (psbt : Psbt)
    (A B rest : List PsbtInput) (inp : PsbtInput) (items : List KeyOrigin)
    (hinputs : psbt.inputs = A ++ (B ++ inp :: rest))
    (hA : A.all (fun p => hasSingleKeypath p && !signableInput fp p) = true)
    (hB : B.all (fun p => hasSingleKeypath p && signableInput fp p) = true)
    (hkp : inp.keypaths = some items) (hlen : items.length ≠ 1)
    (hmix : B = [] ∨ signableInput fp inp = true) :
    keystore_check_psbt fp psbt = PsbtCheck.unsupportedPolicy := by
  unfold keystore_check_psbt
  rw [hinputs, check_loop_skip_nonsignable fp A _ hA]
  cases B with
  | nil =>
    simp only [List.nil_append, keystore_check_psbt_loop, hkp]
    by_cases hm : anyMatch fp items = true
    · rw [if_pos hm, if_pos hlen]
    · rw [if_neg hm, if_neg (by simp), if_pos hlen]
  | cons b B2 =>
    rw [check_loop_skip_signable fp (b :: B2) _ PsbtCheck.cannotSign hB (by simp)]
    have hs : signableInput fp inp = true := by
      rcases hmix with hmix | hmix
      · cases hmix
      · exact hmix
    have hm : anyMatch fp items = true := by
      rw [signableInput, hkp] at hs
      exact hs
    simp only [keystore_check_psbt_loop, hkp]
    rw [if_pos hm, if_pos hlen]

/-- Witness for the corrected claim C10: a non-signable single-keypath input
followed by a non-signable input with two keypath entries returns
UNSUPPORTED_POLICY. -/
theorem check_psbt_unsupported_amended_witness :
    keystore_check_psbt 1
        ⟨[⟨some [⟨2, []⟩], none⟩, ⟨some [⟨3, []⟩, ⟨4, []⟩], none⟩], []⟩ =
      PsbtCheck.unsupportedPolicy :=
  check_psbt_unsupported_amended 1
    ⟨[⟨some [⟨2, []⟩], none⟩, ⟨some [⟨3, []⟩, ⟨4, []⟩], none⟩], []⟩
    [⟨some [⟨2, []⟩], none⟩] [] [] ⟨some [⟨3, []⟩, ⟨4, []⟩], none⟩ [⟨3, []⟩, ⟨4, []⟩]
    (by decide) (by decide) (by decide) (by decide) (by decide) (Or.inl rfl)

/-- Counterexample to claim C10 as stated: a signable input followed by a
non-signable input with two keypath entries returns MIXED_INPUTS, not
UNSUPPORTED_POLICY, although no earlier input triggered MIXED_INPUTS or
CANNOT_SIGN - the MIXED_INPUTS check at the offending input itself precedes
the keypath-count check. -/
theorem check_psbt_unsupported_counterexample :
    keystore_check_psbt 1
        ⟨[⟨some [⟨1, []⟩], none⟩, ⟨some [⟨2, []⟩, ⟨3, []⟩], none⟩], []⟩ =
      PsbtCheck.mixedInputs := by
  decide

/-- Any input without a witness UTXO anywhere in the remaining list makes the
signing loop return -1 with the output slot unwritten, independently of the
signatures already accumulated. -/
theorem sign_loop_missing (env : SignEnv) (psbt : Psbt) :
    ∀ (l : List PsbtInput) (acc : List (List Nat)) (k : Nat) (b : PsbtInput),
      l.get? k = some b → b.witness_utxo = none →
      keystore_sign_psbt_loop env psbt l acc = (-1, none) := by
  intro l
  induction l with
  | nil => intro acc k b hb; simp at hb
  | cons x rest ih =>
    intro acc k b hget hw
    cases hx : x.witness_utxo with
    | none => simp [keystore_sign_psbt_loop, hx]
    | some sat =>
      simp only [keystore_sign_psbt_loop, hx]
      cases k with
      | zero =>
        exfalso
        have hbx : b = x := by simpa using hget.symm
        rw [hbx, hx] at hw
        cases hw
      | succ k => exact ih _ k b (by simpa using hget) hw

/-- Claim C4: if some input of the proposal lacks a witness UTXO, the whole
signing pass of keystore_sign_psbt fails with -1 and the output blob slot is
never written - no partially signed proposal is exposed as a success. -/
theorem sign_psbt_missing_witness_aborts (env : SignEnv) (psbt : Psbt) (k : Nat)
    (b : PsbtInput) (hb : psbt.inputs.get? k = some b) (hw : b.witness_utxo = none) :
    keystore_sign_psbt env psbt = (-1, none) :=
  sign_loop_missing env psbt psbt.inputs [] k b hb hw

/-- Witness for claim C4: a two-input proposal whose second input lacks the
witness UTXO; the first input would be signable, yet nothing is output. -/
theorem sign_psbt_missing_witness_aborts_witness :
    keystore_sign_psbt ⟨fun _ _ => [], fun _ _ => []⟩
      ⟨[⟨some [⟨1, []⟩], some 1000⟩, ⟨some [⟨1, []⟩], none⟩], []⟩ = (-1, none) :=
  sign_psbt_missing_witness_aborts ⟨fun _ _ => [], fun _ _ => []⟩
    ⟨[⟨some [⟨1, []⟩], some 1000⟩, ⟨some [⟨1, []⟩], none⟩], []⟩ 1
    ⟨some [⟨1, []⟩], none⟩ (by decide) (by decide)

/-- Claim C9: keystore_output_is_change returns false for any output index at
or past the number of outputs of the proposal, for every environment of
external primitives: the bounds check is the first thing the function does. -/
theorem output_is_change_out_of_range (env : ChangeEnv) (psbt : Psbt) (i : Nat)
    (h : psbt.outputs.length ≤ i) :
    keystore_output_is_change env psbt i = false := by
  unfold keystore_output_is_change
  rw [if_pos h]

/-- Witness for claim C9: a proposal with one output probed at index 1. -/
theorem output_is_change_out_of_range_witness :
    keystore_output_is_change
      ⟨fun _ => 0, fun _ => 0, fun _ => [], fun _ => [], fun _ => [], fun _ _ => []⟩
      ⟨[], [⟨none, []⟩]⟩ 1 = false :=
  output_is_change_out_of_range
    ⟨fun _ => 0, fun _ => 0, fun _ => [], fun _ => [], fun _ => [], fun _ _ => []⟩
    ⟨[], [⟨none, []⟩]⟩ 1 (by decide)

/-- The version switch of the source agrees with the version selection worded
by the specification whenever SLIP132 tagging is requested. -/
theorem xpubVersion_eq_spec (net : NetworkT) (der : List Nat) :
    xpubVersion net true der = xpubVersionSpec net der := by
  cases der with
  | nil => simp [xpubVersion, xpubVersionSpec]
  | cons d0 rest =>
    simp only [xpubVersion, xpubVersionSpec]
    rw [if_pos (⟨by simp, trivial⟩ : 0 < (d0 :: rest).length ∧ True)]
    simp only [List.getD_cons_zero]
    by_cases h84 : d0 = HARDENED + 84
    · simp [h84]
    · rw [if_neg h84, if_neg h84]
      by_cases h49 : d0 = HARDENED + 49
      · simp [h49]
      · rw [if_neg h49, if_neg h49]
        by_cases h48 : d0 = HARDENED + 48
        · rw [if_pos h48, if_pos h48]
          cases rest with
          | nil => simp
          | cons d1 r1 =>
            cases r1 with
            | nil => simp
            | cons d2 r2 =>
              cases r2 with
              | nil => simp
              | cons d3 r3 =>
                rw [if_pos (by simp : 4 ≤ (d0 :: d1 :: d2 :: d3 :: r3).length)]
                simp [List.getD]
        · rw [if_neg h48, if_neg h48]

/-- Claim C6: with SLIP132 tagging requested, the four header bytes of the
serialized buffer produced by keystore_get_xpub are the big-endian version
word selected from the first (and for 48 hardened, fourth) element of the
parsed derivation exactly as the specification words it: 84 hardened gives
zpub, 49 hardened ypub, 48 hardened with fourth element 1 hardened Ypub,
2 hardened Zpub, and everything else the plain xpub version. -/
theorem get_xpub_slip132_header (env : XpubEnv) (path : List Char) (network : NetworkT)
    (der : List Nat) (hp : parse_derivation path = ParseResult.ok der) :
    keystore_get_xpub_raw env path network true =
      some (be32 (xpubVersionSpec network der) ++
        (env.serialize (env.derive der) network.xprv).drop 4) := by
  unfold keystore_get_xpub_raw
  rw [hp]
  show some (be32 (xpubVersion network true der) ++
    (env.serialize (env.derive der) network.xprv).drop 4) = _
  rw [xpubVersion_eq_spec]

/-- Witness for claim C6: the path 84h parses to the single hardened element
84, and the serialized header carries the native-segwit (zpub) version word
of the network. -/
theorem get_xpub_slip132_header_witness :
    keystore_get_xpub_raw envX path84h netX true =
      some (be32 (xpubVersionSpec netX [HARDENED + 84]) ++
        (envX.serialize (envX.derive [HARDENED + 84]) netX.xprv).drop 4) :=
  get_xpub_slip132_header envX path84h netX [HARDENED + 84] (by decide)

/-- Claim C2 fails on the code: a cosigner entry for this keystore whose
recorded xpub is exactly the SLIP132 encoding of the locally derived key at
the claimed prefix is rejected with WRONG_XPUB (CosignerMismatch), because
both keystore_get_xpub calls of the source pass use_slip132 = 0, so the
recorded value is only ever compared against the plain encoding. The second
and third conjuncts verify that the recorded value is the SLIP132 rendering
and that it differs from the plain rendering the code compares against. -/
theorem check_wallet_slip132_rejected :
    keystore_check_wallet envX netX fpW [(derFieldW, recordedW)] =
      WalletCheck.errWrongXpub ∧
    some recordedW = keystore_get_xpub envX (derFieldW.drop 9) netX true ∧
    keystore_get_xpub envX (derFieldW.drop 9) netX true ≠
      keystore_get_xpub envX (derFieldW.drop 9) netX false := by
  decide

end Specter
